import Mathlib

/-!
Shallow embedding of the reward ledger and windowed leaderboard engine of
`slack-pr-rewards` (src/services/rewards.ts and src/storage/store.ts).

Conventions:
* JS `Record<string, V>` objects are modelled as insertion-ordered
  association lists `List (String × V)`; a fresh key is appended at the end
  (JS string-key insertion order), an existing key is updated in place.
* ISO timestamp strings are modelled as `Int` milliseconds since the epoch
  (`new Date(iso)` comparison is numeric and the ISO encoding is monotone).
* Each call to the store's private `save()` (one per mutating store method)
  is modelled by incrementing a `saveCount` field, so "no persistence write
  occurred" is expressible as state equality.
* `new Date()` inside a store/service method is modelled by an explicit
  `now : Int` argument.
-/

/-- `UserReward` of src/types/index.ts (the per-user account record). -/
structure UserReward where
  userId : String
  username : String
  totalPoints : Nat
  reactionsGiven : Nat
  reactionsReceived : Nat
  lastActivity : Int
  deriving Repr, DecidableEq

/-- `ReactionEvent` of src/types/index.ts. -/
structure ReactionEvent where
  userId : String
  username : String
  emoji : String
  messageUserId : String
  messageUserName : Option String
  messageTs : String
  channelId : String
  timestamp : Int
  giverPoints : Nat
  receiverPoints : Nat
  deriving Repr, DecidableEq

/-- `StorageData` of src/types/index.ts, extended with the `saveCount` ghost
field counting calls to the store's `save()`. `claimedReactions` is a
`Record<string, boolean>` whose values are only ever set to `true`, so it is
modelled by its ordered key list. -/
structure StorageData where
  users : List (String × UserReward)
  reactionHistory : List ReactionEvent
  claimedReactions : List String
  saveCount : Nat
  deriving Repr, DecidableEq

/-- The empty snapshot `{ users: {}, reactionHistory: [], claimedReactions: {} }`
that `load()` returns when no data file exists. -/
def emptyData : StorageData :=
  { users := [], reactionHistory := [], claimedReactions := [], saveCount := 0 }

/-- Key lookup in a JS object modelled as an association list (first binding
wins; objects built by the store never hold duplicate keys). -/
def lookupMap {β : Type} (m : List (String × β)) (k : String) : Option β :=
  (m.find? (fun p => p.1 = k)).map (fun p => p.2)

/-- JS truthiness presence test `!!obj[k]` on such an object. -/
def hasMapKey {β : Type} (m : List (String × β)) (k : String) : Bool :=
  m.any (fun p => p.1 = k)

/-- In-place update of the binding for `k` (JS property assignment on an
existing key keeps insertion order). -/
def updateMap {β : Type} (m : List (String × β)) (k : String) (f : β → β) :
    List (String × β) :=
  m.map (fun p => if p.1 = k then (p.1, f p.2) else p)

/-- The fresh record created by `upsertUser` for an unknown user. -/
def freshUser (userId username : String) (now : Int) : UserReward :=
  { userId := userId, username := username, totalPoints := 0,
    reactionsGiven := 0, reactionsReceived := 0, lastActivity := now }

/-- `RewardStore.upsertUser` restricted to its effect on the `users` object:
create the record if absent, otherwise refresh the username. -/
def upsertUser (users : List (String × UserReward)) (userId username : String)
    (now : Int) : List (String × UserReward) :=
  if hasMapKey users userId then
    updateMap users userId (fun u => { u with username := username })
  else
    users ++ [(userId, freshUser userId username now)]

/-- `RewardStore.addPointsForGiving`: upsert, add points, bump
`reactionsGiven`, refresh `lastActivity`, save. -/
def addPointsForGiving (s : StorageData) (userId username : String)
    (points : Nat) (now : Int) : StorageData :=
  let users1 := upsertUser s.users userId username now
  let users2 := updateMap users1 userId (fun u =>
    { u with totalPoints := u.totalPoints + points,
             reactionsGiven := u.reactionsGiven + 1,
             lastActivity := now })
  { s with users := users2, saveCount := s.saveCount + 1 }

/-- `RewardStore.addPointsForReceiving`: upsert, add points, bump
`reactionsReceived`, refresh `lastActivity`, save. -/
def addPointsForReceiving (s : StorageData) (userId username : String)
    (points : Nat) (now : Int) : StorageData :=
  let users1 := upsertUser s.users userId username now
  let users2 := updateMap users1 userId (fun u =>
    { u with totalPoints := u.totalPoints + points,
             reactionsReceived := u.reactionsReceived + 1,
             lastActivity := now })
  { s with users := users2, saveCount := s.saveCount + 1 }

/-- `RewardStore.recordReaction`: push the event, keep only the last 10000
entries, save. -/
def recordReaction (s : StorageData) (event : ReactionEvent) : StorageData :=
  let h := s.reactionHistory ++ [event]
  { s with
    reactionHistory := if h.length > 10000 then h.drop (h.length - 10000) else h,
    saveCount := s.saveCount + 1 }

/-- The claim-ledger key `` `${giverId}:${channelId}:${messageTs}` ``. -/
def claimKey (giverId channelId messageTs : String) : String :=
  giverId ++ ":" ++ channelId ++ ":" ++ messageTs

/-- `RewardStore.hasClaimedReaction`. -/
def hasClaimedReaction (s : StorageData) (giverId channelId messageTs : String) :
    Bool :=
  s.claimedReactions.contains (claimKey giverId channelId messageTs)

/-- `RewardStore.claimReaction`: set the key to `true` (a fresh key is
appended, an existing key is left where it is), save. -/
def claimReaction (s : StorageData) (giverId channelId messageTs : String) :
    StorageData :=
  let key := claimKey giverId channelId messageTs
  { s with
    claimedReactions :=
      if s.claimedReactions.contains key then s.claimedReactions
      else s.claimedReactions ++ [key],
    saveCount := s.saveCount + 1 }

/-- `RewardConfig` of src/types/index.ts. -/
structure RewardConfig where
  pointsForGiving : Nat
  pointsForReceiving : Nat
  trackedEmojis : List String
  deriving Repr, DecidableEq

/-- `DEFAULT_CONFIG` of src/services/rewards.ts. -/
def DEFAULT_CONFIG : RewardConfig :=
  { pointsForGiving := 1, pointsForReceiving := 2,
    trackedEmojis :=
      ["white_check_mark", "speech_balloon", "exclamation", "question"] }

/-- `emoji.toLowerCase()`: per-character lowercasing (the names involved are
ASCII). Extensionally this is `String.toLower`, written over the character
list so that it reduces in the kernel. -/
def lowercase (s : String) : String :=
  String.mk (s.data.map Char.toLower)

/-- `RewardService.isTrackedEmoji`. -/
def isTrackedEmoji (cfg : RewardConfig) (emoji : String) : Bool :=
  cfg.trackedEmojis.contains (lowercase emoji)

/-- The left-to-right non-overlapping scan for the 6-character token
`:star:`, the semantics of `messageText.match(/:star:/g)`: wherever the token
starts, count one match and resume after it, otherwise advance one
character. -/
def starScan (cs : List Char) : Nat :=
  match cs with
  | ':' :: 's' :: 't' :: 'a' :: 'r' :: ':' :: rest => 1 + starScan rest
  | _ :: rest => starScan rest
  | [] => 0

/-- `RewardService.countStarsInMessage`: count `:star:` matches, cap at 5. -/
def countStarsInMessage (messageText : String) : Nat :=
  min (starScan messageText.data) 5

/-- `RewardService.calculateReactorPoints`:
`starCount >= 2 ? starCount : 1`. -/
def calculateReactorPoints (starCount : Nat) : Nat :=
  if starCount ≥ 2 then starCount else 1

/-- The result record of `RewardService.processReactionAdded`. -/
structure AwardResult where
  giverPoints : Nat
  receiverPoints : Nat
  tracked : Bool
  deriving Repr, DecidableEq

/-- `RewardService.processReactionAdded`, with the store state threaded
explicitly. Returns the result record together with the store state after
the call. -/
def processReactionAdded (cfg : RewardConfig) (s : StorageData)
    (giverId giverUsername receiverId receiverUsername emoji channelId
     messageTs : String) (starCount : Nat) (now : Int) :
    AwardResult × StorageData :=
  if ¬ isTrackedEmoji cfg emoji then
    (⟨0, 0, false⟩, s)
  else if giverId = receiverId then
    (⟨0, 0, true⟩, s)
  else if hasClaimedReaction s giverId channelId messageTs then
    (⟨0, 0, true⟩, s)
  else
    let giverPoints := calculateReactorPoints starCount
    let receiverPoints := cfg.pointsForReceiving
    let s1 := claimReaction s giverId channelId messageTs
    let s2 := addPointsForGiving s1 giverId giverUsername giverPoints now
    let s3 := addPointsForReceiving s2 receiverId receiverUsername
      receiverPoints now
    let event : ReactionEvent :=
      { userId := giverId, username := giverUsername, emoji := emoji,
        messageUserId := receiverId, messageUserName := some receiverUsername,
        messageTs := messageTs, channelId := channelId, timestamp := now,
        giverPoints := giverPoints, receiverPoints := receiverPoints }
    (⟨giverPoints, receiverPoints, true⟩, recordReaction s3 event)

/-- The `Date` values read inside `getStartDateForPeriod`: `now.getTime()`,
`new Date(now.getFullYear(), now.getMonth(), 1).getTime()` (first instant of
the current calendar month) and `new Date(now.getFullYear(), 0, 1).getTime()`
(first instant of the current calendar year), all in epoch milliseconds. -/
structure DateModel where
  ms : Int
  monthStartMs : Int
  yearStartMs : Int
  deriving Repr, DecidableEq

/-- `RewardStore.getStartDateForPeriod` (the JS `switch` over the period
string; `null` becomes `none`). -/
def getStartDateForPeriod (d : DateModel) (period : String) : Option Int :=
  if period = "30days" then some (d.ms - 30 * 24 * 60 * 60 * 1000)
  else if period = "mtd" then some d.monthStartMs
  else if period = "6months" then some (d.ms - 180 * 24 * 60 * 60 * 1000)
  else if period = "year" then some d.yearStartMs
  else if period = "all" then none
  else some (d.ms - 30 * 24 * 60 * 60 * 1000)

/-- One aggregation record of `getLeaderboardByPeriod`'s `userPoints` object. -/
structure PeriodAgg where
  username : String
  points : Nat
  reactions : Nat
  deriving Repr, DecidableEq

/-- The body of the `for (const reaction of filteredReactions)` loop:
credit `giverPoints` (and one reaction) to the reactor when positive, then
`receiverPoints` to the message author when positive, creating missing
entries with zero counts. -/
def periodStep (m : List (String × PeriodAgg)) (r : ReactionEvent) :
    List (String × PeriodAgg) :=
  let m1 :=
    if r.giverPoints > 0 then
      let m0 :=
        if hasMapKey m r.userId then m
        else m ++ [(r.userId, ⟨r.username, 0, 0⟩)]
      updateMap m0 r.userId (fun a =>
        { a with points := a.points + r.giverPoints,
                 reactions := a.reactions + 1 })
    else m
  if r.receiverPoints > 0 then
    let m2 :=
      if hasMapKey m1 r.messageUserId then m1
      else
        m1 ++ [(r.messageUserId,
          ⟨match r.messageUserName with
            | some n => if n = "" then r.messageUserId else n
            | none => r.messageUserId, 0, 0⟩)]
    updateMap m2 r.messageUserId (fun a =>
      { a with points := a.points + r.receiverPoints })
  else m1

/-- One row of `getLeaderboardByPeriod`'s result. -/
structure PeriodEntry where
  userId : String
  username : String
  points : Nat
  reactions : Nat
  deriving Repr, DecidableEq

/-- The comparator `(a, b) => b.points - a.points` as the "stays before"
relation of the (stable, per ES2019) `Array.prototype.sort`. -/
def periodLe (a b : PeriodEntry) : Bool :=
  b.points ≤ a.points

/-- `RewardStore.getLeaderboardByPeriod`: filter the history by the window
start, aggregate per user, sort descending by points, truncate to `limit`. -/
def getLeaderboardByPeriod (d : DateModel) (s : StorageData) (period : String)
    (limit : Nat) : List PeriodEntry :=
  let startDate := getStartDateForPeriod d period
  let filteredReactions : List ReactionEvent :=
    match startDate with
    | some t => s.reactionHistory.filter (fun r => t ≤ r.timestamp)
    | none => s.reactionHistory
  let userPoints := filteredReactions.foldl periodStep []
  ((userPoints.map (fun (p : String × PeriodAgg) =>
      (⟨p.1, p.2.username, p.2.points, p.2.reactions⟩ : PeriodEntry))).mergeSort
    periodLe).take limit

/-! ### Branch equations for `processReactionAdded` -/

theorem process_untracked (cfg : RewardConfig) (s : StorageData)
    (giverId giverUsername receiverId receiverUsername emoji channelId
     messageTs : String) (starCount : Nat) (now : Int)
    (h : isTrackedEmoji cfg emoji = false) :
    processReactionAdded cfg s giverId giverUsername receiverId
      receiverUsername emoji channelId messageTs starCount now
      = (⟨0, 0, false⟩, s) := by
  simp [processReactionAdded, h]

theorem process_self (cfg : RewardConfig) (s : StorageData)
    (a giverUsername receiverUsername emoji channelId messageTs : String)
    (starCount : Nat) (now : Int) (h : isTrackedEmoji cfg emoji = true) :
    processReactionAdded cfg s a giverUsername a receiverUsername emoji
      channelId messageTs starCount now = (⟨0, 0, true⟩, s) := by
  simp [processReactionAdded, h]

theorem process_claimed (cfg : RewardConfig) (s : StorageData)
    (giverId giverUsername receiverId receiverUsername emoji channelId
     messageTs : String) (starCount : Nat) (now : Int)
    (h1 : isTrackedEmoji cfg emoji = true) (h2 : giverId ≠ receiverId)
    (h3 : hasClaimedReaction s giverId channelId messageTs = true) :
    processReactionAdded cfg s giverId giverUsername receiverId
      receiverUsername emoji channelId messageTs starCount now
      = (⟨0, 0, true⟩, s) := by
  simp [processReactionAdded, h1, h2, h3]

theorem process_accepted (cfg : RewardConfig) (s : StorageData)
    (giverId giverUsername receiverId receiverUsername emoji channelId
     messageTs : String) (starCount : Nat) (now : Int)
    (h1 : isTrackedEmoji cfg emoji = true) (h2 : giverId ≠ receiverId)
    (h3 : hasClaimedReaction s giverId channelId messageTs = false) :
    processReactionAdded cfg s giverId giverUsername receiverId
      receiverUsername emoji channelId messageTs starCount now
      = (⟨calculateReactorPoints starCount, cfg.pointsForReceiving, true⟩,
         recordReaction
           (addPointsForReceiving
             (addPointsForGiving
               (claimReaction s giverId channelId messageTs)
               giverId giverUsername (calculateReactorPoints starCount) now)
             receiverId receiverUsername cfg.pointsForReceiving now)
           { userId := giverId, username := giverUsername, emoji := emoji,
             messageUserId := receiverId,
             messageUserName := some receiverUsername,
             messageTs := messageTs, channelId := channelId, timestamp := now,
             giverPoints := calculateReactorPoints starCount,
             receiverPoints := cfg.pointsForReceiving }) := by
  simp [processReactionAdded, h1, h2, h3]

theorem calculateReactorPoints_pos (starCount : Nat) :
    0 < calculateReactorPoints starCount := by
  unfold calculateReactorPoints
  split <;> omega

/-- C10: whenever `processReactionAdded` awards zero giver points (untracked
emoji, self-reaction, or already-claimed key), the store state — accounts,
claim ledger, history and save counter — is returned unchanged. -/
theorem c10_rejected_state_unchanged (cfg : RewardConfig) (s : StorageData)
    (giverId giverUsername receiverId receiverUsername emoji channelId
     messageTs : String) (starCount : Nat) (now : Int)
    (h : (processReactionAdded cfg s giverId giverUsername receiverId
      receiverUsername emoji channelId messageTs starCount now).1.giverPoints
        = 0) :
    (processReactionAdded cfg s giverId giverUsername receiverId
      receiverUsername emoji channelId messageTs starCount now).2 = s := by
  rcases h1 : isTrackedEmoji cfg emoji with _ | _
  · rw [process_untracked _ _ _ _ _ _ _ _ _ _ _ h1]
  · by_cases h2 : giverId = receiverId
    · subst h2
      rw [process_self _ _ _ _ _ _ _ _ _ _ h1]
    · rcases h3 : hasClaimedReaction s giverId channelId messageTs with _ | _
      · rw [process_accepted _ _ _ _ _ _ _ _ _ _ _ h1 h2 h3] at h
        exact absurd h (Nat.pos_iff_ne_zero.mp (calculateReactorPoints_pos starCount))
      · rw [process_claimed _ _ _ _ _ _ _ _ _ _ _ h1 h2 h3]

/-- C7: for every tracked emoji, a self-reaction (actor = target) yields zero
giver points, zero receiver points, and is still reported as tracked, not as
an error. -/
theorem c7_no_self_reward (cfg : RewardConfig) (s : StorageData)
    (a giverUsername receiverUsername emoji channelId messageTs : String)
    (starCount : Nat) (now : Int) (h : isTrackedEmoji cfg emoji = true) :
    (processReactionAdded cfg s a giverUsername a receiverUsername emoji
      channelId messageTs starCount now).1 = ⟨0, 0, true⟩ := by
  rw [process_self _ _ _ _ _ _ _ _ _ _ h]

/-- Witness for C7 at a concrete self-reaction. -/
theorem c7_no_self_reward_witness :
    (processReactionAdded DEFAULT_CONFIG emptyData "U1" "alice" "U1" "alice"
      "question" "C1" "111.222" 3 1000).1 = ⟨0, 0, true⟩ :=
  c7_no_self_reward DEFAULT_CONFIG emptyData "U1" "alice" "alice" "question"
    "C1" "111.222" 3 1000 (by decide)

/-- C8: an untracked emoji yields zero points and tracked = false, for all
actors, targets, channels, messages and bonus-signal values. -/
theorem c8_untracked_emoji (cfg : RewardConfig) (s : StorageData)
    (giverId giverUsername receiverId receiverUsername emoji channelId
     messageTs : String) (starCount : Nat) (now : Int)
    (h : isTrackedEmoji cfg emoji = false) :
    (processReactionAdded cfg s giverId giverUsername receiverId
      receiverUsername emoji channelId messageTs starCount now).1
      = ⟨0, 0, false⟩ := by
  rw [process_untracked _ _ _ _ _ _ _ _ _ _ _ h]

/-- Witness for C8 at a concrete untracked emoji. -/
theorem c8_untracked_emoji_witness :
    (processReactionAdded DEFAULT_CONFIG emptyData "U1" "alice" "U2" "bob"
      "thumbsup" "C1" "111.222" 4 1000).1 = ⟨0, 0, false⟩ :=
  c8_untracked_emoji DEFAULT_CONFIG emptyData "U1" "alice" "U2" "bob"
    "thumbsup" "C1" "111.222" 4 1000 (by decide)

/-- Witness for C10 at a concrete already-claimed key. -/
theorem c10_rejected_state_unchanged_witness :
    (processReactionAdded DEFAULT_CONFIG
      { emptyData with claimedReactions := ["U1:C1:111.222"] }
      "U1" "alice" "U2" "bob" "question" "C1" "111.222" 2 1000).2
      = { emptyData with claimedReactions := ["U1:C1:111.222"] } :=
  c10_rejected_state_unchanged DEFAULT_CONFIG
    { emptyData with claimedReactions := ["U1:C1:111.222"] }
    "U1" "alice" "U2" "bob" "question" "C1" "111.222" 2 1000 (by decide)

theorem recordReaction_history (s : StorageData) (e : ReactionEvent) :
    (recordReaction s e).reactionHistory
      = (s.reactionHistory ++ [e]).drop ((s.reactionHistory ++ [e]).length - 10000) := by
  simp only [recordReaction]
  split
  · rfl
  · rename_i hlen
    rw [Nat.sub_eq_zero_of_le (by omega), List.drop_zero]

theorem drop_append_singleton_getLast (l : List ReactionEvent)
    (a : ReactionEvent) (k : Nat) (hk : k ≤ l.length) :
    ((l ++ [a]).drop k).getLast? = some a := by
  rw [List.drop_append_of_le_length hk, List.getLast?_concat]

/-- C9: `recordReaction` appends the new event at the end, retains exactly the
most recent suffix of length at most 10000 (FIFO eviction of the oldest
entries), and never shrinks the claim ledger or touches the accounts. -/
theorem c9_bounded_fifo_history (s : StorageData) (e : ReactionEvent) :
    (recordReaction s e).reactionHistory
        = (s.reactionHistory ++ [e]).drop ((s.reactionHistory ++ [e]).length - 10000) ∧
    (recordReaction s e).reactionHistory.length ≤ 10000 ∧
    (recordReaction s e).reactionHistory.getLast? = some e ∧
    (recordReaction s e).claimedReactions = s.claimedReactions ∧
    (recordReaction s e).users = s.users := by
  refine ⟨recordReaction_history s e, ?_, ?_, rfl, rfl⟩
  · rw [recordReaction_history s e]
    simp only [List.length_drop, List.length_append, List.length_cons]
    omega
  · rw [recordReaction_history s e]
    exact drop_append_singleton_getLast _ _ _ (by simp)

/-- C5: the period-to-window mapping — `30days` is now minus 30 days, `mtd`
the first instant of the current calendar month, `6months` now minus 180
days, `year` the first instant of the current calendar year, `all` has no
lower bound, and every unrecognized period string falls back to the 30-day
window instead of failing. -/
theorem c5_period_window_mapping (d : DateModel) (p : String) :
    getStartDateForPeriod d "30days" = some (d.ms - 30 * 24 * 60 * 60 * 1000) ∧
    getStartDateForPeriod d "mtd" = some d.monthStartMs ∧
    getStartDateForPeriod d "6months" = some (d.ms - 180 * 24 * 60 * 60 * 1000) ∧
    getStartDateForPeriod d "year" = some d.yearStartMs ∧
    getStartDateForPeriod d "all" = none ∧
    (p ∉ (["30days", "mtd", "6months", "year", "all"] : List String) →
      getStartDateForPeriod d p = some (d.ms - 30 * 24 * 60 * 60 * 1000)) := by
  refine ⟨rfl, rfl, rfl, rfl, rfl, fun hp => ?_⟩
  simp only [List.mem_cons, List.not_mem_nil, or_false, not_or] at hp
  obtain ⟨h1, h2, h3, h4, h5⟩ := hp
  simp [getStartDateForPeriod, h1, h2, h3, h4, h5]

/-- Witness for C5: the fallback at the concrete unrecognized period
`"weekly"`, together with the five recognized cases, at a concrete date. -/
theorem c5_period_window_mapping_witness :
    getStartDateForPeriod ⟨1000, 20, 30⟩ "30days" = some (1000 - 2592000000) ∧
    getStartDateForPeriod ⟨1000, 20, 30⟩ "mtd" = some 20 ∧
    getStartDateForPeriod ⟨1000, 20, 30⟩ "6months" = some (1000 - 15552000000) ∧
    getStartDateForPeriod ⟨1000, 20, 30⟩ "year" = some 30 ∧
    getStartDateForPeriod ⟨1000, 20, 30⟩ "all" = none ∧
    getStartDateForPeriod ⟨1000, 20, 30⟩ "weekly" = some (1000 - 2592000000) :=
  ⟨(c5_period_window_mapping ⟨1000, 20, 30⟩ "weekly").1,
   (c5_period_window_mapping ⟨1000, 20, 30⟩ "weekly").2.1,
   (c5_period_window_mapping ⟨1000, 20, 30⟩ "weekly").2.2.1,
   (c5_period_window_mapping ⟨1000, 20, 30⟩ "weekly").2.2.2.1,
   (c5_period_window_mapping ⟨1000, 20, 30⟩ "weekly").2.2.2.2.1,
   (c5_period_window_mapping ⟨1000, 20, 30⟩ "weekly").2.2.2.2.2 (by decide)⟩

/-! ### The `:star:` scan -/

/-- A message consisting of `n` adjacent `:star:` tokens. -/
def starMsg : Nat → String
  | 0 => ""
  | n + 1 => ":star:" ++ starMsg n

theorem starScan_cons_ne (c : Char) (rest : List Char)
    (h : ∀ (rest1 : List Char),
      c = ':' → rest = 's' :: 't' :: 'a' :: 'r' :: ':' :: rest1 → False) :
    starScan (c :: rest) = starScan rest := by
  rw [starScan.eq_def]
  split
  · rename_i rest1 heq
    exfalso
    cases heq
    exact h rest1 rfl rfl
  · rename_i head1 rest1 h1 heq
    cases heq
    rfl
  · rename_i heq
    cases heq

theorem starScan_starMsg (n : Nat) : starScan (starMsg n).data = n := by
  induction n with
  | zero => rfl
  | succ n ih =>
    show starScan ((":star:" ++ starMsg n) : String).data = n + 1
    rw [String.data_append]
    show 1 + starScan (starMsg n).data = n + 1
    rw [ih]
    omega

theorem starScan_eq_zero_of_not_infix (cs : List Char)
    (h : ¬ [':', 's', 't', 'a', 'r', ':'] <:+: cs) : starScan cs = 0 := by
  induction cs using starScan.induct with
  | case1 rest ih =>
    exact absurd ⟨[], rest, rfl⟩ h
  | case2 c rest hne ih =>
    rw [starScan_cons_ne c rest hne]
    exact ih (fun hin => h (List.infix_cons hin))
  | case3 => rfl

/-- C6: `countStarsInMessage` counts exact non-overlapping occurrences of the
`:star:` token, capped at 5; text that does not contain the token — such as
the differently-named `:star2:` marker or the bare word `star` — contributes
nothing. -/
theorem c6_star_counting :
    (∀ s : String, countStarsInMessage s ≤ 5) ∧
    (∀ n : Nat, countStarsInMessage (starMsg n) = min n 5) ∧
    (∀ s : String, ¬ ([':', 's', 't', 'a', 'r', ':'] <:+: s.data) →
      countStarsInMessage s = 0) ∧
    countStarsInMessage ":star2:" = 0 ∧
    countStarsInMessage "star" = 0 ∧
    countStarsInMessage ":star: a :star2: star :Star:" = 1 := by
  refine ⟨fun s => Nat.min_le_right _ 5, fun n => ?_, fun s hs => ?_,
    by decide, by decide, by decide⟩
  · rw [countStarsInMessage, starScan_starMsg]
  · rw [countStarsInMessage, starScan_eq_zero_of_not_infix s.data hs]
    rfl

/-- Witness for C6: the no-token clause applied at the concrete text
`"we :star2: fans"`. -/
theorem c6_star_counting_witness :
    countStarsInMessage "we :star2: fans" = 0 :=
  c6_star_counting.2.2.1 "we :star2: fans" (by decide)

/-- C2 counterexample: `calculateReactorPoints` itself applies no cap — at
bonus-signal count 7 it returns 7, not the 5 the claim requires. -/
theorem c2_counterexample :
    calculateReactorPoints 7 = 7 ∧ ¬ calculateReactorPoints 7 = 5 := by
  decide

/-- C2 amended: `calculateReactorPoints` returns 1 for counts 0 and 1 and the
count itself for counts ≥ 2, with no internal cap; the cap at 5 is enforced
upstream by `countStarsInMessage`, so actor points computed from message text
for messages containing 0, 1, 2, 3, 4, 5 and 7 `:star:` tokens are 1, 1, 2,
3, 4, 5 and 5. -/
theorem c2_bonus_scaling_amended :
    (∀ n : Nat, calculateReactorPoints n = if 2 ≤ n then n else 1) ∧
    (∀ n : Nat, calculateReactorPoints (countStarsInMessage (starMsg n))
      = if 2 ≤ min n 5 then min n 5 else 1) ∧
    [0, 1, 2, 3, 4, 5, 7].map
        (fun n => calculateReactorPoints (countStarsInMessage (starMsg n)))
      = [1, 1, 2, 3, 4, 5, 5] := by
  refine ⟨fun n => rfl, fun n => ?_, by decide⟩
  rw [countStarsInMessage, starScan_starMsg]
  rfl

/-! ### Claim-ledger lemmas -/

theorem claimedReactions_addPointsForGiving (s : StorageData)
    (userId username : String) (points : Nat) (now : Int) :
    (addPointsForGiving s userId username points now).claimedReactions
      = s.claimedReactions := rfl

theorem claimedReactions_addPointsForReceiving (s : StorageData)
    (userId username : String) (points : Nat) (now : Int) :
    (addPointsForReceiving s userId username points now).claimedReactions
      = s.claimedReactions := rfl

theorem claimedReactions_recordReaction (s : StorageData) (e : ReactionEvent) :
    (recordReaction s e).claimedReactions = s.claimedReactions := rfl

theorem hasClaimed_claimReaction (s : StorageData)
    (giverId channelId messageTs : String) :
    hasClaimedReaction (claimReaction s giverId channelId messageTs) giverId
      channelId messageTs = true := by
  simp only [hasClaimedReaction, claimReaction]
  split
  · assumption
  · rw [List.elem_iff]
    exact List.mem_append_right _ (List.mem_singleton.mpr rfl)

theorem hasClaimed_claimReaction_mono (s : StorageData)
    (g c m giverId channelId messageTs : String)
    (h : hasClaimedReaction s giverId channelId messageTs = true) :
    hasClaimedReaction (claimReaction s g c m) giverId channelId messageTs
      = true := by
  simp only [hasClaimedReaction, claimReaction] at h ⊢
  split
  · exact h
  · rw [List.elem_iff] at h ⊢
    exact List.mem_append_left _ h

/-- The claim ledger only grows: any `processReactionAdded` call preserves an
already-claimed key. -/
theorem hasClaimed_process_mono (cfg : RewardConfig) (s : StorageData)
    (g gn r rn em ch ts : String) (sc : Nat) (n : Int)
    (giverId channelId messageTs : String)
    (h : hasClaimedReaction s giverId channelId messageTs = true) :
    hasClaimedReaction
      (processReactionAdded cfg s g gn r rn em ch ts sc n).2 giverId channelId
      messageTs = true := by
  rcases h1 : isTrackedEmoji cfg em with _ | _
  · rw [process_untracked _ _ _ _ _ _ _ _ _ _ _ h1]
    exact h
  · by_cases h2 : g = r
    · subst h2
      rw [process_self _ _ _ _ _ _ _ _ _ _ h1]
      exact h
    · rcases h3 : hasClaimedReaction s g ch ts with _ | _
      · rw [process_accepted _ _ _ _ _ _ _ _ _ _ _ h1 h2 h3]
        simp only [claimedReactions_recordReaction,
          claimedReactions_addPointsForReceiving,
          claimedReactions_addPointsForGiving, hasClaimedReaction] at *
        exact hasClaimed_claimReaction_mono s g ch ts giverId channelId
          messageTs h
      · rw [process_claimed _ _ _ _ _ _ _ _ _ _ _ h1 h2 h3]
        exact h

/-- C1: if a first `processReactionAdded` call with a tracked emoji, distinct
actor and target, and an unclaimed `(actorId, channelId, messageId)` key
succeeds (nonzero giver and receiver points, tracked = true), then the key is
claimed, stays claimed across any further calls, and every subsequent call
with the same `(actorId, channelId, messageId)` and a tracked emoji —
whatever bonus-signal value is passed — returns zero giver points, zero
receiver points, and tracked = true. -/
theorem c1_idempotent_scoring (cfg : RewardConfig) (s : StorageData)
    (giverId giverUsername receiverId receiverUsername emoji channelId
     messageTs : String) (starCount : Nat) (now : Int)
    (hT : isTrackedEmoji cfg emoji = true)
    (hNe : giverId ≠ receiverId)
    (hNC : hasClaimedReaction s giverId channelId messageTs = false)
    (hRecv : 0 < cfg.pointsForReceiving) :
    0 < (processReactionAdded cfg s giverId giverUsername receiverId
      receiverUsername emoji channelId messageTs starCount now).1.giverPoints ∧
    0 < (processReactionAdded cfg s giverId giverUsername receiverId
      receiverUsername emoji channelId messageTs starCount now).1.receiverPoints ∧
    (processReactionAdded cfg s giverId giverUsername receiverId
      receiverUsername emoji channelId messageTs starCount now).1.tracked = true ∧
    hasClaimedReaction
      (processReactionAdded cfg s giverId giverUsername receiverId
        receiverUsername emoji channelId messageTs starCount now).2 giverId
      channelId messageTs = true ∧
    (∀ (s2 : StorageData),
      hasClaimedReaction s2 giverId channelId messageTs = true →
      ∀ (gname2 rid2 rname2 emoji2 : String) (starCount2 : Nat) (now2 : Int),
        isTrackedEmoji cfg emoji2 = true →
        (processReactionAdded cfg s2 giverId gname2 rid2 rname2 emoji2
          channelId messageTs starCount2 now2).1 = ⟨0, 0, true⟩) := by
  rw [process_accepted _ _ _ _ _ _ _ _ _ _ _ hT hNe hNC]
  refine ⟨calculateReactorPoints_pos starCount, hRecv, rfl, ?_, ?_⟩
  · simp only [claimedReactions_recordReaction,
      claimedReactions_addPointsForReceiving,
      claimedReactions_addPointsForGiving, hasClaimedReaction] at *
    exact hasClaimed_claimReaction s giverId channelId messageTs
  · intro s2 h2 gname2 rid2 rname2 emoji2 starCount2 now2 hT2
    by_cases heq : giverId = rid2
    · subst heq
      rw [process_self _ _ _ _ _ _ _ _ _ _ hT2]
    · rw [process_claimed _ _ _ _ _ _ _ _ _ _ _ hT2 heq h2]

/-- Witness for C1: a concrete first award claims the key; the repeated call
(here with a different bonus signal) yields zero points but tracked = true. -/
theorem c1_idempotent_scoring_witness :
    0 < (processReactionAdded DEFAULT_CONFIG emptyData "U1" "alice" "U2" "bob"
      "question" "C1" "111.222" 3 1000).1.giverPoints ∧
    (processReactionAdded DEFAULT_CONFIG
      (processReactionAdded DEFAULT_CONFIG emptyData "U1" "alice" "U2" "bob"
        "question" "C1" "111.222" 3 1000).2
      "U1" "alice" "U2" "bob" "question" "C1" "111.222" 5 2000).1
      = ⟨0, 0, true⟩ := by
  have h := c1_idempotent_scoring DEFAULT_CONFIG emptyData "U1" "alice" "U2"
    "bob" "question" "C1" "111.222" 3 1000 (by decide) (by decide) (by decide)
    (by decide)
  exact ⟨h.1, h.2.2.2.2 _ h.2.2.2.1 "alice" "U2" "bob" "question" 5 2000
    (by decide)⟩

/-! ### Generic association-object lemmas -/

theorem lookupMap_updateMap {β : Type} (m : List (String × β)) (k : String)
    (f : β → β) (U : String) :
    lookupMap (updateMap m k f) U
      = if U = k then (lookupMap m k).map f else lookupMap m U := by
  simp only [lookupMap, updateMap, List.find?_map]
  have hpred : ((fun p : String × β => decide (p.1 = U)) ∘
      (fun p : String × β => if p.1 = k then (p.1, f p.2) else p))
      = fun p : String × β => decide (p.1 = U) := by
    funext p
    by_cases hp : p.1 = k <;> simp [hp]
  rw [hpred]
  by_cases hUk : U = k
  · subst hUk
    cases hfind : m.find? (fun p => p.1 = U) with
    | none => simp
    | some p =>
      have hpU : p.1 = U := by simpa using List.find?_some hfind
      simp [hpU]
  · cases hfind : m.find? (fun p => p.1 = U) with
    | none => simp [hUk]
    | some p =>
      have hpU : p.1 = U := by simpa using List.find?_some hfind
      simp [hUk, hpU, fun h : p.1 = k => hUk (hpU ▸ h)]

theorem find?_eq_none_of_hasMapKey_false {β : Type} (m : List (String × β))
    (k : String) (h : hasMapKey m k = false) :
    m.find? (fun p => p.1 = k) = none := by
  rw [List.find?_eq_none]
  intro x hx
  simp only [hasMapKey, List.any_eq_false] at h
  exact h x hx

theorem lookupMap_append_singleton {β : Type} (m : List (String × β))
    (k : String) (b : β) (U : String) (h : hasMapKey m k = false) :
    lookupMap (m ++ [(k, b)]) U
      = if U = k then some b else lookupMap m U := by
  simp only [lookupMap, List.find?_append]
  by_cases hUk : U = k
  · subst hUk
    rw [find?_eq_none_of_hasMapKey_false m U h]
    simp
  · cases hfind : m.find? (fun p => p.1 = U) with
    | none =>
      have hkU : ¬ (k = U) := fun hh => hUk hh.symm
      simp [hfind, hkU, hUk, List.find?_cons]
    | some p => simp [hUk]

theorem lookupMap_eq_none_of_hasMapKey_false {β : Type}
    (m : List (String × β)) (k : String) (h : hasMapKey m k = false) :
    lookupMap m k = none := by
  simp [lookupMap, find?_eq_none_of_hasMapKey_false m k h]

theorem lookupMap_isSome_of_hasMapKey_true {β : Type}
    (m : List (String × β)) (k : String) (h : hasMapKey m k = true) :
    ∃ b, lookupMap m k = some b := by
  simp only [hasMapKey, List.any_eq_true] at h
  obtain ⟨p, hp, hpk⟩ := h
  simp only [decide_eq_true_eq] at hpk
  cases hfind : m.find? (fun p => p.1 = k) with
  | none =>
    rw [List.find?_eq_none] at hfind
    exact absurd (by simpa using hpk) (hfind p hp)
  | some q => exact ⟨q.2, by simp [lookupMap, hfind]⟩

/-- `upsertUser` never changes the `totalPoints` seen for any user: an
existing record keeps its points, a fresh record has zero. -/
theorem lookupMap_upsertUser_totalPoints (users : List (String × UserReward))
    (userId username : String) (now : Int) (U : String) :
    ((lookupMap (upsertUser users userId username now) U).map
      (fun u => u.totalPoints)).getD 0
    = ((lookupMap users U).map (fun u => u.totalPoints)).getD 0 := by
  unfold upsertUser
  split
  · rename_i hk
    rw [lookupMap_updateMap]
    by_cases hUk : U = userId
    · subst hUk
      obtain ⟨b, hb⟩ := lookupMap_isSome_of_hasMapKey_true users U hk
      simp [hb]
    · simp [hUk]
  · rename_i hk
    rw [lookupMap_append_singleton _ _ _ _ (by simpa using hk)]
    by_cases hUk : U = userId
    · subst hUk
      rw [lookupMap_eq_none_of_hasMapKey_false _ _ (by simpa using hk)]
      simp [freshUser]
    · simp [hUk]

/-! ### Per-user totals and history sums (claims C3, C4) -/

/-- `accounts[U].totalPoints`, with 0 for an absent account. -/
def userTotal (users : List (String × UserReward)) (U : String) : Nat :=
  ((lookupMap users U).map (fun u => u.totalPoints)).getD 0

/-- Sum of `giverPoints` over the events where `U` is the actor. -/
def sumGiverPoints (U : String) (hist : List ReactionEvent) : Nat :=
  ((hist.filter (fun r => r.userId = U)).map (fun r => r.giverPoints)).sum

/-- Sum of `receiverPoints` over the events where `U` is the target. -/
def sumReceiverPoints (U : String) (hist : List ReactionEvent) : Nat :=
  ((hist.filter (fun r => r.messageUserId = U)).map
    (fun r => r.receiverPoints)).sum

theorem sumGiverPoints_append (U : String) (l1 l2 : List ReactionEvent) :
    sumGiverPoints U (l1 ++ l2) = sumGiverPoints U l1 + sumGiverPoints U l2 := by
  simp [sumGiverPoints, List.filter_append]

theorem sumReceiverPoints_append (U : String) (l1 l2 : List ReactionEvent) :
    sumReceiverPoints U (l1 ++ l2)
      = sumReceiverPoints U l1 + sumReceiverPoints U l2 := by
  simp [sumReceiverPoints, List.filter_append]

theorem sumGiverPoints_singleton (U : String) (e : ReactionEvent) :
    sumGiverPoints U [e] = if e.userId = U then e.giverPoints else 0 := by
  by_cases hU : e.userId = U <;> simp [sumGiverPoints, hU]

theorem sumReceiverPoints_singleton (U : String) (e : ReactionEvent) :
    sumReceiverPoints U [e] = if e.messageUserId = U then e.receiverPoints else 0 := by
  by_cases hU : e.messageUserId = U <;> simp [sumReceiverPoints, hU]

theorem lookupMap_upsertUser_isSome (users : List (String × UserReward))
    (userId username : String) (now : Int) :
    ∃ b, lookupMap (upsertUser users userId username now) userId = some b := by
  unfold upsertUser
  split
  · rename_i hk
    rw [lookupMap_updateMap]
    obtain ⟨b, hb⟩ := lookupMap_isSome_of_hasMapKey_true users userId hk
    simp only [if_pos rfl, hb, Option.map_some]
    exact ⟨_, rfl⟩
  · rename_i hk
    rw [lookupMap_append_singleton _ _ _ _ (by simpa using hk)]
    simp only [if_pos rfl]
    exact ⟨_, rfl⟩

theorem users_addPointsForGiving (s : StorageData) (id name : String)
    (pts : Nat) (now : Int) :
    (addPointsForGiving s id name pts now).users
      = updateMap (upsertUser s.users id name now) id (fun u =>
          { u with totalPoints := u.totalPoints + pts,
                   reactionsGiven := u.reactionsGiven + 1,
                   lastActivity := now }) := rfl

theorem users_addPointsForReceiving (s : StorageData) (id name : String)
    (pts : Nat) (now : Int) :
    (addPointsForReceiving s id name pts now).users
      = updateMap (upsertUser s.users id name now) id (fun u =>
          { u with totalPoints := u.totalPoints + pts,
                   reactionsReceived := u.reactionsReceived + 1,
                   lastActivity := now }) := rfl

theorem userTotal_addPointsForGiving (s : StorageData) (id name : String)
    (pts : Nat) (now : Int) (U : String) :
    userTotal (addPointsForGiving s id name pts now).users U
      = userTotal s.users U + (if U = id then pts else 0) := by
  rw [users_addPointsForGiving]
  unfold userTotal
  rw [lookupMap_updateMap]
  by_cases hU : U = id
  · subst hU
    obtain ⟨b, hb⟩ := lookupMap_upsertUser_isSome s.users U name now
    have hbase := lookupMap_upsertUser_totalPoints s.users U name now U
    rw [hb] at hbase
    simp [hb]
    simpa using hbase
  · simp only [hU, if_neg hU, ite_false]
    exact lookupMap_upsertUser_totalPoints s.users id name now U

theorem userTotal_addPointsForReceiving (s : StorageData) (id name : String)
    (pts : Nat) (now : Int) (U : String) :
    userTotal (addPointsForReceiving s id name pts now).users U
      = userTotal s.users U + (if U = id then pts else 0) := by
  rw [users_addPointsForReceiving]
  unfold userTotal
  rw [lookupMap_updateMap]
  by_cases hU : U = id
  · subst hU
    obtain ⟨b, hb⟩ := lookupMap_upsertUser_isSome s.users U name now
    have hbase := lookupMap_upsertUser_totalPoints s.users U name now U
    rw [hb] at hbase
    simp [hb]
    simpa using hbase
  · simp only [hU, if_neg hU, ite_false]
    exact lookupMap_upsertUser_totalPoints s.users id name now U

theorem users_claimReaction (s : StorageData) (g c m : String) :
    (claimReaction s g c m).users = s.users := rfl

theorem users_recordReaction (s : StorageData) (e : ReactionEvent) :
    (recordReaction s e).users = s.users := rfl

theorem reactionHistory_claimReaction (s : StorageData) (g c m : String) :
    (claimReaction s g c m).reactionHistory = s.reactionHistory := rfl

theorem reactionHistory_addPointsForGiving (s : StorageData)
    (id name : String) (pts : Nat) (now : Int) :
    (addPointsForGiving s id name pts now).reactionHistory
      = s.reactionHistory := rfl

theorem reactionHistory_addPointsForReceiving (s : StorageData)
    (id name : String) (pts : Nat) (now : Int) :
    (addPointsForReceiving s id name pts now).reactionHistory
      = s.reactionHistory := rfl

theorem recordReaction_no_truncation (s : StorageData) (e : ReactionEvent)
    (h : s.reactionHistory.length + 1 ≤ 10000) :
    (recordReaction s e).reactionHistory = s.reactionHistory ++ [e] := by
  simp only [recordReaction]
  rw [if_neg]
  simp only [List.length_append, List.length_cons, List.length_nil]
  omega

/-! ### Sequences of award calls (claim C3) -/

/-- The argument tuple of one `processReactionAdded` call. -/
structure AwardRequest where
  giverId : String
  giverUsername : String
  receiverId : String
  receiverUsername : String
  emoji : String
  channelId : String
  messageTs : String
  starCount : Nat
  now : Int
  deriving Repr, DecidableEq

/-- One `processReactionAdded` call on a request tuple. -/
def applyAward (cfg : RewardConfig) (s : StorageData) (q : AwardRequest) :
    AwardResult × StorageData :=
  processReactionAdded cfg s q.giverId q.giverUsername q.receiverId
    q.receiverUsername q.emoji q.channelId q.messageTs q.starCount q.now

/-- Run a sequence of award calls, keeping the final store state. -/
def runAwards (cfg : RewardConfig) (s : StorageData)
    (qs : List AwardRequest) : StorageData :=
  qs.foldl (fun s q => (applyAward cfg s q).2) s

/-- Run a sequence of award calls, also recording whether every call was
accepted with nonzero giver points. -/
def runAwardsAccepted (cfg : RewardConfig) (s : StorageData × Bool)
    (qs : List AwardRequest) : StorageData × Bool :=
  qs.foldl (fun s q =>
    ((applyAward cfg s.1 q).2,
     s.2 && decide (0 < (applyAward cfg s.1 q).1.giverPoints))) s

/-- The per-user totals/history-sums invariant of claim C3. -/
def sumsInvariant (s : StorageData) : Prop :=
  ∀ U : String,
    sumGiverPoints U s.reactionHistory + sumReceiverPoints U s.reactionHistory
      = userTotal s.users U

theorem ite_eq_swap (a b : String) (x : Nat) :
    (if a = b then x else 0) = if b = a then x else 0 := by
  by_cases h : a = b
  · simp [h]
  · rw [if_neg h, if_neg (fun hh => h hh.symm)]

theorem accepted_state_sumsInvariant (cfg : RewardConfig) (s : StorageData)
    (g gn r rn em ch ts : String) (sc : Nat) (now : Int)
    (hI : sumsInvariant s) (hcap : s.reactionHistory.length < 10000) :
    sumsInvariant
      (recordReaction
        (addPointsForReceiving
          (addPointsForGiving (claimReaction s g ch ts) g gn
            (calculateReactorPoints sc) now)
          r rn cfg.pointsForReceiving now)
        { userId := g, username := gn, emoji := em, messageUserId := r,
          messageUserName := some rn, messageTs := ts, channelId := ch,
          timestamp := now, giverPoints := calculateReactorPoints sc,
          receiverPoints := cfg.pointsForReceiving }) := by
  intro U
  have hh3 :
      (addPointsForReceiving
        (addPointsForGiving (claimReaction s g ch ts) g gn
          (calculateReactorPoints sc) now)
        r rn cfg.pointsForReceiving now).reactionHistory
      = s.reactionHistory := rfl
  rw [recordReaction_no_truncation _ _ (by rw [hh3]; omega), hh3,
    users_recordReaction, sumGiverPoints_append, sumReceiverPoints_append,
    sumGiverPoints_singleton, sumReceiverPoints_singleton,
    userTotal_addPointsForReceiving, userTotal_addPointsForGiving]
  have husers : (claimReaction s g ch ts).users = s.users := rfl
  rw [husers]
  have hIU := hI U
  simp only []
  rw [ite_eq_swap g U, ite_eq_swap r U]
  omega
theorem sumsInvariant_step (cfg : RewardConfig) (s : StorageData)
    (q : AwardRequest) (hI : sumsInvariant s)
    (hcap : s.reactionHistory.length < 10000) :
    sumsInvariant (applyAward cfg s q).2 ∧
    (applyAward cfg s q).2.reactionHistory.length
      ≤ s.reactionHistory.length + 1 := by
  unfold applyAward
  rcases h1 : isTrackedEmoji cfg q.emoji with _ | _
  · rw [process_untracked _ _ _ _ _ _ _ _ _ _ _ h1]
    exact ⟨hI, Nat.le_succ s.reactionHistory.length⟩
  · by_cases h2 : q.giverId = q.receiverId
    · rw [h2, process_self _ _ _ _ _ _ _ _ _ _ h1]
      exact ⟨hI, Nat.le_succ s.reactionHistory.length⟩
    · rcases h3 : hasClaimedReaction s q.giverId q.channelId q.messageTs
        with _ | _
      · rw [process_accepted _ _ _ _ _ _ _ _ _ _ _ h1 h2 h3]
        refine ⟨accepted_state_sumsInvariant cfg s q.giverId q.giverUsername
          q.receiverId q.receiverUsername q.emoji q.channelId q.messageTs
          q.starCount q.now hI hcap, ?_⟩
        show (recordReaction _ _).reactionHistory.length ≤ _
        have hh3 :
            (addPointsForReceiving
              (addPointsForGiving (claimReaction s q.giverId q.channelId
                q.messageTs) q.giverId q.giverUsername
                (calculateReactorPoints q.starCount) q.now)
              q.receiverId q.receiverUsername cfg.pointsForReceiving
              q.now).reactionHistory = s.reactionHistory := rfl
        rw [recordReaction_no_truncation _ _ (by rw [hh3]; omega), hh3]
        simp
      · rw [process_claimed _ _ _ _ _ _ _ _ _ _ _ h1 h2 h3]
        exact ⟨hI, Nat.le_succ s.reactionHistory.length⟩

theorem runAwards_sumsInvariant (cfg : RewardConfig) (qs : List AwardRequest) :
    ∀ s : StorageData, sumsInvariant s →
      s.reactionHistory.length + qs.length ≤ 10000 →
      sumsInvariant (runAwards cfg s qs) := by
  induction qs with
  | nil => exact fun s hI _ => hI
  | cons q qs ih =>
    intro s hI hlen
    simp only [List.length_cons] at hlen
    have hstep := sumsInvariant_step cfg s q hI (by omega)
    show sumsInvariant (runAwards cfg (applyAward cfg s q).2 qs)
    exact ih (applyAward cfg s q).2 hstep.1 (by omega)

/-- C3 amended: starting from the empty snapshot, after any sequence of at
most 10000 award calls (so that FIFO eviction of the bounded history has not
yet discarded any accepted event), for every user `U` the sum of
`giverPoints` over history events with actor `U` plus the sum of
`receiverPoints` over history events with target `U` equals
`accounts[U].totalPoints` (0 for an absent account). -/
theorem c3_totals_equal_history_sums_amended (cfg : RewardConfig)
    (qs : List AwardRequest) (hlen : qs.length ≤ 10000) (U : String) :
    sumGiverPoints U (runAwards cfg emptyData qs).reactionHistory
      + sumReceiverPoints U (runAwards cfg emptyData qs).reactionHistory
      = userTotal (runAwards cfg emptyData qs).users U := by
  refine runAwards_sumsInvariant cfg qs emptyData (fun V => ?_)
    (by simpa [emptyData] using hlen) U
  simp [emptyData, sumGiverPoints, sumReceiverPoints, userTotal, lookupMap]

/-- Witness for C3-amended: a single concrete accepted award, checked for the
actor. -/
theorem c3_totals_equal_history_sums_amended_witness :
    sumGiverPoints "U1"
        (runAwards DEFAULT_CONFIG emptyData
          [⟨"U1", "alice", "U2", "bob", "question", "C1", "111.222", 3, 50⟩]).reactionHistory
      + sumReceiverPoints "U1"
        (runAwards DEFAULT_CONFIG emptyData
          [⟨"U1", "alice", "U2", "bob", "question", "C1", "111.222", 3, 50⟩]).reactionHistory
      = userTotal
        (runAwards DEFAULT_CONFIG emptyData
          [⟨"U1", "alice", "U2", "bob", "question", "C1", "111.222", 3, 50⟩]).users "U1" :=
  c3_totals_equal_history_sums_amended DEFAULT_CONFIG
    [⟨"U1", "alice", "U2", "bob", "question", "C1", "111.222", 3, 50⟩]
    (by decide) "U1"

/-! ### C3 counterexample: 10001 accepted awards overflow the history cap -/

/-- The `i`-th distinct message timestamp (distinct by length). -/
def cMsg (i : Nat) : String := String.mk (List.replicate i 'x')

/-- The `i`-th award request of the counterexample run: `A` reacts with
`:question:` to a fresh message of `B` in channel `c`. -/
def cReq (i : Nat) : AwardRequest :=
  ⟨"A", "ga", "B", "gb", "question", "c", cMsg i, 0, 0⟩

/-- The first `n` counterexample requests. -/
def cReqs (n : Nat) : List AwardRequest := (List.range n).map cReq

/-- The claim key recorded by the `i`-th counterexample request. -/
def ck (i : Nat) : String := claimKey "A" "c" (cMsg i)

theorem ck_length (i : Nat) : (ck i).length = 4 + i := by
  simp [ck, claimKey, cMsg, String.length_append]
  rfl

theorem ck_injOn (i n : Nat) (h : ck i = ck n) : i = n := by
  have := congrArg String.length h
  rw [ck_length, ck_length] at this
  omega

theorem mem_recordReaction (s : StorageData) (e x : ReactionEvent)
    (hx : x ∈ (recordReaction s e).reactionHistory) :
    x ∈ s.reactionHistory ++ [e] := by
  rw [recordReaction_history] at hx
  exact List.drop_subset _ _ hx

theorem recordReaction_length_le (s : StorageData) (e : ReactionEvent) :
    (recordReaction s e).reactionHistory.length ≤ 10000 := by
  rw [recordReaction_history]
  simp only [List.length_drop, List.length_append, List.length_cons]
  omega

theorem claimedReactions_claimReaction_new (s : StorageData)
    (g c m : String) (h : hasClaimedReaction s g c m = false) :
    (claimReaction s g c m).claimedReactions
      = s.claimedReactions ++ [claimKey g c m] := by
  simp only [claimReaction]
  rw [if_neg]
  simpa [hasClaimedReaction] using h

/-- The invariant carried along the counterexample run. -/
def cInv (n : Nat) (p : StorageData × Bool) : Prop :=
  p.2 = true ∧
  p.1.claimedReactions = (List.range n).map ck ∧
  userTotal p.1.users "A" = n ∧
  (∀ e ∈ p.1.reactionHistory, e.giverPoints = 1 ∧ e.messageUserId = "B") ∧
  p.1.reactionHistory.length ≤ 10000

theorem cRun_inv (n : Nat) :
    cInv n (runAwardsAccepted DEFAULT_CONFIG (emptyData, true) (cReqs n)) := by
  induction n with
  | zero =>
    refine ⟨rfl, rfl, ?_, ?_, ?_⟩
    · simp [userTotal, emptyData, lookupMap, runAwardsAccepted, cReqs]
    · intro e he
      simp [runAwardsAccepted, cReqs, emptyData] at he
    · simp [runAwardsAccepted, cReqs, emptyData]
  | succ n ih =>
    have hsplit : cReqs (n + 1) = cReqs n ++ [cReq n] := by
      simp [cReqs, List.range_succ]
    rw [hsplit]
    unfold runAwardsAccepted at ih ⊢
    rw [List.foldl_append]
    set p := (cReqs n).foldl (fun (s : StorageData × Bool) q =>
      ((applyAward DEFAULT_CONFIG s.1 q).2,
       s.2 && decide (0 < (applyAward DEFAULT_CONFIG s.1 q).1.giverPoints)))
      (emptyData, true) with hp
    obtain ⟨hflag, hclaims, htotal, hevents, hlen⟩ := ih
    -- the n-th request is accepted
    have hT : isTrackedEmoji DEFAULT_CONFIG "question" = true := by decide
    have hNe : ("A" : String) ≠ "B" := by decide
    have hNC : hasClaimedReaction p.1 "A" "c" (cMsg n) = false := by
      rw [Bool.eq_false_iff]
      intro hcon
      rw [hasClaimedReaction, List.elem_iff, hclaims] at hcon
      obtain ⟨i, hi, hik⟩ := List.mem_map.mp hcon
      exact absurd (ck_injOn i n hik) (Nat.ne_of_lt (List.mem_range.mp hi))
    have hacc := process_accepted DEFAULT_CONFIG p.1 "A" "ga" "B" "gb"
      "question" "c" (cMsg n) 0 0 hT hNe hNC
    simp only [List.foldl_cons, List.foldl_nil]
    have happly : applyAward DEFAULT_CONFIG p.1 (cReq n)
        = processReactionAdded DEFAULT_CONFIG p.1 "A" "ga" "B" "gb" "question"
            "c" (cMsg n) 0 0 := rfl
    rw [happly, hacc]
    set s1 := claimReaction p.1 "A" "c" (cMsg n) with hs1
    set s2 := addPointsForGiving s1 "A" "ga" (calculateReactorPoints 0) 0
      with hs2
    set s3 := addPointsForReceiving s2 "B" "gb"
      DEFAULT_CONFIG.pointsForReceiving 0 with hs3
    set e0 : ReactionEvent :=
      { userId := "A", username := "ga", emoji := "question",
        messageUserId := "B", messageUserName := some "gb",
        messageTs := cMsg n, channelId := "c", timestamp := 0,
        giverPoints := calculateReactorPoints 0,
        receiverPoints := DEFAULT_CONFIG.pointsForReceiving } with he0
    refine ⟨by simp [hflag, calculateReactorPoints], ?_, ?_, ?_, ?_⟩
    · -- claims
      show (recordReaction s3 e0).claimedReactions = _
      have h31 : (recordReaction s3 e0).claimedReactions
          = s1.claimedReactions := rfl
      rw [h31, hs1, claimedReactions_claimReaction_new _ _ _ _ hNC, hclaims,
        List.range_succ]
      simp [ck, List.map_append]
    · -- totalPoints of A
      show userTotal (recordReaction s3 e0).users "A" = n + 1
      rw [users_recordReaction, hs3, userTotal_addPointsForReceiving, hs2,
        userTotal_addPointsForGiving]
      have husers : s1.users = p.1.users := rfl
      rw [husers, htotal]
      simp [calculateReactorPoints]
    · -- history events
      intro e he
      have hmem := mem_recordReaction s3 e0 e he
      have hh3 : s3.reactionHistory = p.1.reactionHistory := rfl
      rw [hh3] at hmem
      rcases List.mem_append.mp hmem with hmem | hmem
      · exact hevents e hmem
      · rw [List.mem_singleton.mp hmem]
        exact ⟨rfl, rfl⟩
    · -- history length
      exact recordReaction_length_le s3 e0

theorem sums_le_length_of_unit (l : List ReactionEvent)
    (hl : ∀ e ∈ l, e.giverPoints = 1 ∧ e.messageUserId = "B") :
    sumGiverPoints "A" l + sumReceiverPoints "A" l ≤ l.length := by
  induction l with
  | nil => simp [sumGiverPoints, sumReceiverPoints]
  | cons e rest ih =>
    obtain ⟨hg, hm⟩ := hl e (List.mem_cons_self e rest)
    have hrest := ih (fun x hx => hl x (List.mem_cons_of_mem e hx))
    rw [show e :: rest = [e] ++ rest from rfl, sumGiverPoints_append,
      sumReceiverPoints_append, sumGiverPoints_singleton,
      sumReceiverPoints_singleton, hm, hg]
    have : (if ("B" : String) = "A" then e.receiverPoints else 0) = 0 := by
      rw [if_neg (by decide)]
    rw [this]
    simp only [List.length_append, List.length_singleton]
    split <;> omega

/-- C3 counterexample: a concrete run of 10001 awards, every one accepted
with nonzero points, starting from the empty snapshot, after which user `A`'s
history sums (at most the 10000 retained events, one giver point each) no
longer equal `accounts[A].totalPoints = 10001` — FIFO eviction has discarded
the oldest event but all-time totals keep it. -/
theorem c3_counterexample :
    (runAwardsAccepted DEFAULT_CONFIG (emptyData, true) (cReqs 10001)).2
      = true ∧
    sumGiverPoints "A"
        (runAwardsAccepted DEFAULT_CONFIG (emptyData, true)
          (cReqs 10001)).1.reactionHistory
      + sumReceiverPoints "A"
        (runAwardsAccepted DEFAULT_CONFIG (emptyData, true)
          (cReqs 10001)).1.reactionHistory
      ≠ userTotal
          (runAwardsAccepted DEFAULT_CONFIG (emptyData, true)
            (cReqs 10001)).1.users "A" := by
  obtain ⟨hflag, _, htotal, hevents, hlen⟩ := cRun_inv 10001
  refine ⟨hflag, ?_⟩
  have hsums := sums_le_length_of_unit _ hevents
  omega

/-! ### Windowed leaderboard (claim C4) -/

/-- The window predicate of `getLeaderboardByPeriod`: an event is considered
iff its timestamp is at or after the window start (no bound for `all`). -/
def inPeriodWindow (d : DateModel) (period : String) (r : ReactionEvent) :
    Bool :=
  match getStartDateForPeriod d period with
  | some t => t ≤ r.timestamp
  | none => true

theorem getLeaderboardByPeriod_eq_filter (d : DateModel) (s : StorageData)
    (period : String) (limit : Nat) :
    getLeaderboardByPeriod d s period limit
      = ((((s.reactionHistory.filter (inPeriodWindow d period)).foldl
            periodStep []).map (fun (p : String × PeriodAgg) =>
              (⟨p.1, p.2.username, p.2.points, p.2.reactions⟩ :
                PeriodEntry))).mergeSort periodLe).take limit := by
  unfold getLeaderboardByPeriod inPeriodWindow
  cases hsd : getStartDateForPeriod d period with
  | none => simp [List.filter_true]
  | some t => simp

/-- The running total recorded for `U` in the `userPoints` object. -/
def aggPoints (m : List (String × PeriodAgg)) (U : String) : Nat :=
  ((lookupMap m U).map (fun a => a.points)).getD 0

theorem aggPoints_create_update (m : List (String × PeriodAgg))
    (id name : String) (k : Nat) (f : PeriodAgg → PeriodAgg)
    (hf : ∀ a, (f a).points = a.points + k) (U : String) :
    aggPoints (updateMap
      (if hasMapKey m id then m else m ++ [(id, ⟨name, 0, 0⟩)]) id f) U
      = aggPoints m U + (if U = id then k else 0) := by
  unfold aggPoints
  split
  · rename_i hk
    rw [lookupMap_updateMap]
    by_cases hU : U = id
    · subst hU
      obtain ⟨b, hb⟩ := lookupMap_isSome_of_hasMapKey_true m U hk
      simp [hb, hf]
    · simp [hU]
  · rename_i hk
    rw [lookupMap_updateMap]
    by_cases hU : U = id
    · subst hU
      rw [lookupMap_append_singleton _ _ _ _ (by simpa using hk)]
      rw [lookupMap_eq_none_of_hasMapKey_false _ _ (by simpa using hk)]
      simp [hf]
    · rw [if_neg hU, lookupMap_append_singleton _ _ _ _ (by simpa using hk),
        if_neg hU, if_neg hU]
      omega

theorem periodStep_aggPoints (m : List (String × PeriodAgg))
    (r : ReactionEvent) (U : String) :
    aggPoints (periodStep m r) U
      = aggPoints m U + (if U = r.userId then r.giverPoints else 0)
        + (if U = r.messageUserId then r.receiverPoints else 0) := by
  unfold periodStep
  by_cases hg : r.giverPoints > 0
  · by_cases hr : r.receiverPoints > 0
    · rw [if_pos hg, if_pos hr,
        aggPoints_create_update _ _ _ _ _ (fun a => rfl),
        aggPoints_create_update _ _ _ _ _ (fun a => rfl)]
    · rw [if_pos hg, if_neg hr,
        aggPoints_create_update _ _ _ _ _ (fun a => rfl)]
      have h2 : r.receiverPoints = 0 := by omega
      simp [h2]
  · by_cases hr : r.receiverPoints > 0
    · rw [if_neg hg, if_pos hr,
        aggPoints_create_update _ _ _ _ _ (fun a => rfl)]
      have h1 : r.giverPoints = 0 := by omega
      simp [h1]
    · rw [if_neg hg, if_neg hr]
      have h1 : r.giverPoints = 0 := by omega
      have h2 : r.receiverPoints = 0 := by omega
      simp [h1, h2]

theorem foldl_periodStep_aggPoints (l : List ReactionEvent) :
    ∀ (m : List (String × PeriodAgg)) (U : String),
      aggPoints (l.foldl periodStep m) U
        = aggPoints m U + sumGiverPoints U l + sumReceiverPoints U l := by
  induction l with
  | nil =>
    intro m U
    simp [sumGiverPoints, sumReceiverPoints]
  | cons e rest ih =>
    intro m U
    rw [List.foldl_cons, ih (periodStep m e) U, periodStep_aggPoints,
      show e :: rest = [e] ++ rest from rfl, sumGiverPoints_append,
      sumReceiverPoints_append, sumGiverPoints_singleton,
      sumReceiverPoints_singleton, ite_eq_swap e.userId U,
      ite_eq_swap e.messageUserId U]
    omega

theorem keys_updateMap {β : Type} (m : List (String × β)) (k : String)
    (f : β → β) : (updateMap m k f).map Prod.fst = m.map Prod.fst := by
  unfold updateMap
  rw [List.map_map]
  apply List.map_congr_left
  intro p _
  by_cases hp : p.1 = k <;> simp [hp]

theorem not_mem_keys_of_hasMapKey_false {β : Type} (m : List (String × β))
    (k : String) (h : hasMapKey m k = false) : k ∉ m.map Prod.fst := by
  intro hmem
  obtain ⟨p, hp, hpk⟩ := List.mem_map.mp hmem
  simp only [hasMapKey, List.any_eq_false] at h
  exact h p hp (by simp [hpk])

theorem nodupKeys_periodStep (m : List (String × PeriodAgg))
    (r : ReactionEvent) (h : (m.map Prod.fst).Nodup) :
    ((periodStep m r).map Prod.fst).Nodup := by
  unfold periodStep
  have hcreate : ∀ (m0 : List (String × PeriodAgg)) (id : String)
      (a : PeriodAgg), (m0.map Prod.fst).Nodup →
      (((if hasMapKey m0 id then m0 else m0 ++ [(id, a)]).map Prod.fst)).Nodup := by
    intro m0 id a h0
    split
    · exact h0
    · rename_i hk
      rw [List.map_append]
      simp only [List.map_cons, List.map_nil]
      rw [List.nodup_append]
      refine ⟨h0, List.nodup_singleton id, ?_⟩
      intro x hx hx1
      rw [List.mem_singleton.mp hx1] at hx
      exact not_mem_keys_of_hasMapKey_false m0 id (by simpa using hk) hx
  by_cases hg : r.giverPoints > 0
  · by_cases hr : r.receiverPoints > 0
    · rw [if_pos hg, if_pos hr, keys_updateMap]
      apply hcreate
      rw [keys_updateMap]
      exact hcreate m r.userId _ h
    · rw [if_pos hg, if_neg hr, keys_updateMap]
      exact hcreate m r.userId _ h
  · by_cases hr : r.receiverPoints > 0
    · rw [if_neg hg, if_pos hr, keys_updateMap]
      exact hcreate m r.messageUserId _ h
    · rw [if_neg hg, if_neg hr]
      exact h

theorem nodupKeys_foldl_periodStep (l : List ReactionEvent) :
    ∀ m : List (String × PeriodAgg), (m.map Prod.fst).Nodup →
      (((l.foldl periodStep m)).map Prod.fst).Nodup := by
  induction l with
  | nil => exact fun m h => h
  | cons e rest ih =>
    intro m h
    exact ih (periodStep m e) (nodupKeys_periodStep m e h)

theorem find?_eq_of_mem_nodupKeys {β : Type} (m : List (String × β))
    (id : String) (b : β) (hnd : (m.map Prod.fst).Nodup)
    (hmem : (id, b) ∈ m) : m.find? (fun p => p.1 = id) = some (id, b) := by
  induction m with
  | nil => cases hmem
  | cons p rest ih =>
    rw [List.map_cons, List.nodup_cons] at hnd
    rcases List.mem_cons.mp hmem with hmem | hmem
    · rw [← hmem]
      simp [List.find?_cons]
    · have hne : p.1 ≠ id := by
        intro hcon
        apply hnd.1
        rw [hcon]
        exact List.mem_map.mpr ⟨(id, b), hmem, rfl⟩
      rw [List.find?_cons]
      have hd : (decide (p.1 = id)) = false := by simpa using hne
      rw [hd]
      exact ih hnd.2 hmem

theorem periodLe_trans : ∀ a b c : PeriodEntry,
    periodLe a b = true → periodLe b c = true → periodLe a c = true := by
  intro a b c
  simp only [periodLe, decide_eq_true_eq]
  omega

theorem periodLe_total : ∀ a b : PeriodEntry,
    (periodLe a b || periodLe b a) = true := by
  intro a b
  simp only [periodLe, Bool.or_eq_true, decide_eq_true_eq]
  omega

/-- C4: `getLeaderboardByPeriod` considers exactly the events at or after the
window start, gives every returned entry the points equal to that user's
giver-point plus receiver-point sums over the retained events (one shared
per-user total), returns the entries sorted descending by points, and returns
at most `limit` entries. -/
theorem c4_windowed_leaderboard (d : DateModel) (s : StorageData)
    (period : String) (limit : Nat) :
    (getLeaderboardByPeriod d s period limit).length ≤ limit ∧
    List.Pairwise (fun a b : PeriodEntry => b.points ≤ a.points)
      (getLeaderboardByPeriod d s period limit) ∧
    (∀ e ∈ getLeaderboardByPeriod d s period limit,
      e.points
        = sumGiverPoints e.userId
            (s.reactionHistory.filter (inPeriodWindow d period))
          + sumReceiverPoints e.userId
            (s.reactionHistory.filter (inPeriodWindow d period))) ∧
    getLeaderboardByPeriod d s period limit
      = getLeaderboardByPeriod d
          { s with reactionHistory :=
              s.reactionHistory.filter (inPeriodWindow d period) }
          period limit := by
  refine ⟨?_, ?_, ?_, ?_⟩
  · rw [getLeaderboardByPeriod_eq_filter]
    rw [List.length_take]
    exact min_le_left _ _
  · rw [getLeaderboardByPeriod_eq_filter]
    refine List.Pairwise.sublist (List.take_sublist _ _) ?_
    have hs := @List.sorted_mergeSort PeriodEntry periodLe periodLe_trans
      periodLe_total
      (((s.reactionHistory.filter (inPeriodWindow d period)).foldl
        periodStep []).map (fun (p : String × PeriodAgg) =>
          (⟨p.1, p.2.username, p.2.points, p.2.reactions⟩ : PeriodEntry)))
    exact hs.imp (fun h => by simpa [periodLe] using h)
  · intro e he
    rw [getLeaderboardByPeriod_eq_filter] at he
    have h1 := (List.take_sublist _ _).subset he
    have h2 := (List.mergeSort_perm _ periodLe).mem_iff.mp h1
    obtain ⟨p, hp, hpe⟩ := List.mem_map.mp h2
    have hnd := nodupKeys_foldl_periodStep
      (s.reactionHistory.filter (inPeriodWindow d period)) [] (by simp)
    have hfind := find?_eq_of_mem_nodupKeys _ p.1 p.2 hnd (by simpa using hp)
    have hpts : aggPoints ((s.reactionHistory.filter
        (inPeriodWindow d period)).foldl periodStep []) p.1 = p.2.points := by
      simp [aggPoints, lookupMap, hfind]
    have hfold := foldl_periodStep_aggPoints
      (s.reactionHistory.filter (inPeriodWindow d period)) [] p.1
    rw [hpts] at hfold
    have hagg0 : aggPoints [] p.1 = 0 := by simp [aggPoints, lookupMap]
    rw [hagg0] at hfold
    rw [← hpe]
    show p.2.points = _
    rw [hfold]
    simp
  · rw [getLeaderboardByPeriod_eq_filter, getLeaderboardByPeriod_eq_filter]
    have hff : (s.reactionHistory.filter (inPeriodWindow d period)).filter
        (inPeriodWindow d period)
        = s.reactionHistory.filter (inPeriodWindow d period) :=
      List.filter_eq_self.mpr (fun x hx => (List.mem_filter.mp hx).2)
    simp only [hff]


/-- Witness for C4: the per-entry sum clause applied to the single entry of a
concrete one-event history with the `all` window. -/
theorem c4_windowed_leaderboard_witness :
    ((⟨"A", "ga", 3, 1⟩ : PeriodEntry) : PeriodEntry).points
      = sumGiverPoints "A"
          (({ emptyData with reactionHistory :=
              [{ userId := "A", username := "ga", emoji := "question",
                 messageUserId := "B", messageUserName := some "gb",
                 messageTs := "m", channelId := "c", timestamp := 100,
                 giverPoints := 3, receiverPoints := 0 }] } :
            StorageData).reactionHistory.filter
              (inPeriodWindow ⟨500, 0, 0⟩ "all"))
        + sumReceiverPoints "A"
          (({ emptyData with reactionHistory :=
              [{ userId := "A", username := "ga", emoji := "question",
                 messageUserId := "B", messageUserName := some "gb",
                 messageTs := "m", channelId := "c", timestamp := 100,
                 giverPoints := 3, receiverPoints := 0 }] } :
            StorageData).reactionHistory.filter
              (inPeriodWindow ⟨500, 0, 0⟩ "all")) :=
  (c4_windowed_leaderboard ⟨500, 0, 0⟩
    { emptyData with reactionHistory :=
        [{ userId := "A", username := "ga", emoji := "question",
           messageUserId := "B", messageUserName := some "gb",
           messageTs := "m", channelId := "c", timestamp := 100,
           giverPoints := 3, receiverPoints := 0 }] }
    "all" 10).2.2.1 ⟨"A", "ga", 3, 1⟩
    (by simp [getLeaderboardByPeriod, getStartDateForPeriod, periodStep,
      hasMapKey, updateMap, emptyData, List.mergeSort])
